import Mathlib

/-!
Verification development for the Sim30L trajectory generator
(src/js/data/generate_sim30L_v2.py).

The script numerically integrates a point-mass flight model from a cutover
("split") state to a runway threshold: a phased controller chooses a target
bank angle each step, a rate limiter moves the actual bank toward it, the
bank drives the turn rate, and independent deceleration and descent profiles
update speed and altitude.  The loop, the controller, the profiles and the
exact-arithmetic heading helpers are embedded below over `ℚ` (Python float
arithmetic is modelled as exact rational arithmetic).  The transcendental
library functions the script calls (`math.sin`, `math.cos`, `math.tan`,
`math.asin`, `math.atan2`, `math.sqrt`) and the constant `math.pi` have no
exact rational counterpart; they are abstracted as the fields of an `Env`
record, and every theorem below holds for an arbitrary `Env`.  Dead code in
the loop (the unused `bearing_to_rwy` / `hdg_to_rwy` bindings at lines
358-359 of the source) is omitted.
-/

namespace Sim30L

/-! ## Configuration constants (source lines 22-53) -/

def TARGET_SPEED_KTS : ℚ := 100
def TARGET_ALTITUDE_FT : ℚ := 2213
def RWY_30L_THRESHOLD_LAT : ℚ := 36.205081
def RWY_30L_THRESHOLD_LON : ℚ := -115.190543
def RWY_30L_HEADING : ℚ := 314.5
def METERS_PER_DEG_LAT : ℚ := 110540
def FEET_PER_METER : ℚ := 3.28084
def KNOTS_TO_FPS : ℚ := 1.68781
def G_FPS2 : ℚ := 32.174

/-! ## Simulation parameters (source lines 331-333) -/

def dt : ℚ := 0.5
def max_iterations : ℕ := 200

/-- Abstract interface for the transcendental functions of Python's `math`
module used by the script, plus the constant `math.pi`.  The embedding is
parametric in this record: theorems hold for any interpretation. -/
structure Env where
  pi : ℚ
  sin : ℚ → ℚ
  cos : ℚ → ℚ
  tan : ℚ → ℚ
  asin : ℚ → ℚ
  atan2 : ℚ → ℚ → ℚ
  sqrt : ℚ → ℚ

/-- `DEG_TO_RAD = math.pi / 180` (source line 48). -/
def DEG_TO_RAD (env : Env) : ℚ := env.pi / 180

/-- `RAD_TO_DEG = 180 / math.pi` (source line 49). -/
def RAD_TO_DEG (env : Env) : ℚ := 180 / env.pi

/-! ## Heading arithmetic (source lines 92-107), exact in `ℚ`.

`normalize_heading` and `signed_angle_diff` are `while` loops in the source;
each loop is embedded as a well-founded recursion stepping by 360. -/

/-- First loop of `normalize_heading`: `while hdg < 0: hdg += 360`. -/
def norm_up (hdg : ℚ) : ℚ :=
  if hdg < 0 then norm_up (hdg + 360) else hdg
termination_by (⌈-hdg / 360⌉).toNat
decreasing_by
  have h1 : ⌈-(hdg + 360) / 360⌉ = ⌈-hdg / 360⌉ - 1 := by
    rw [show -(hdg + 360) / 360 = -hdg / 360 - 1 by ring, Int.ceil_sub_one]
  have h2 : 0 < ⌈-hdg / 360⌉ := by
    have : (0 : ℚ) < -hdg / 360 := by
      have : (0 : ℚ) < -hdg := by linarith
      positivity
    exact Int.ceil_pos.mpr this
  omega

/-- Second loop of `normalize_heading`: `while hdg >= 360: hdg -= 360`. -/
def norm_down (hdg : ℚ) : ℚ :=
  if hdg ≥ 360 then norm_down (hdg - 360) else hdg
termination_by (⌈hdg / 360⌉).toNat
decreasing_by
  have h1 : ⌈(hdg - 360) / 360⌉ = ⌈hdg / 360⌉ - 1 := by
    rw [show (hdg - 360) / 360 = hdg / 360 - 1 by ring, Int.ceil_sub_one]
  have h2 : 0 < ⌈hdg / 360⌉ := by
    have : (0 : ℚ) < hdg / 360 := by
      have : (0 : ℚ) < hdg := by linarith
      positivity
    exact Int.ceil_pos.mpr this
  omega

/-- `normalize_heading(hdg)` (source lines 92-98): run both loops in order. -/
def normalize_heading (hdg : ℚ) : ℚ := norm_down (norm_up hdg)

/-- First loop of `signed_angle_diff`: `while diff > 180: diff -= 360`. -/
def wrap_down (diff : ℚ) : ℚ :=
  if diff > 180 then wrap_down (diff - 360) else diff
termination_by (⌈diff / 360⌉).toNat
decreasing_by
  have h1 : ⌈(diff - 360) / 360⌉ = ⌈diff / 360⌉ - 1 := by
    rw [show (diff - 360) / 360 = diff / 360 - 1 by ring, Int.ceil_sub_one]
  have h2 : 0 < ⌈diff / 360⌉ := by
    have : (0 : ℚ) < diff / 360 := by
      have : (0 : ℚ) < diff := by linarith
      positivity
    exact Int.ceil_pos.mpr this
  omega

/-- Second loop of `signed_angle_diff`: `while diff < -180: diff += 360`. -/
def wrap_up (diff : ℚ) : ℚ :=
  if diff < -180 then wrap_up (diff + 360) else diff
termination_by (⌈-diff / 360⌉).toNat
decreasing_by
  have h1 : ⌈-(diff + 360) / 360⌉ = ⌈-diff / 360⌉ - 1 := by
    rw [show -(diff + 360) / 360 = -diff / 360 - 1 by ring, Int.ceil_sub_one]
  have h2 : 0 < ⌈-diff / 360⌉ := by
    have : (0 : ℚ) < -diff / 360 := by
      have : (0 : ℚ) < -diff := by linarith
      positivity
    exact Int.ceil_pos.mpr this
  omega

/-- `signed_angle_diff(from_hdg, to_hdg)` (source lines 100-107):
`diff = to_hdg - from_hdg`, then both wrap loops in order. -/
def signed_angle_diff (from_hdg to_hdg : ℚ) : ℚ :=
  wrap_up (wrap_down (to_hdg - from_hdg))

/-! ## Geodesy (source lines 59-90), over the abstract `Env` -/

/-- `haversine_distance_ft` (source lines 59-67). -/
def haversine_distance_ft (env : Env) (lat1 lon1 lat2 lon2 : ℚ) : ℚ :=
  let R : ℚ := 6371000
  let phi1 := lat1 * DEG_TO_RAD env
  let phi2 := lat2 * DEG_TO_RAD env
  let dphi := (lat2 - lat1) * DEG_TO_RAD env
  let dlambda := (lon2 - lon1) * DEG_TO_RAD env
  let a := env.sin (dphi / 2) ^ 2 +
    env.cos phi1 * env.cos phi2 * env.sin (dlambda / 2) ^ 2
  let dist_m := R * 2 * env.atan2 (env.sqrt a) (env.sqrt (1 - a))
  dist_m * FEET_PER_METER

/-- `destination_point` (source lines 78-90); returns `(lat, lon)`. -/
def destination_point (env : Env) (lat lon bearing_deg distance_ft : ℚ) :
    ℚ × ℚ :=
  let R : ℚ := 6371000 * FEET_PER_METER
  let phi1 := lat * DEG_TO_RAD env
  let lambda1 := lon * DEG_TO_RAD env
  let theta := bearing_deg * DEG_TO_RAD env
  let d := distance_ft / R
  let phi2 := env.asin (env.sin phi1 * env.cos d +
    env.cos phi1 * env.sin d * env.cos theta)
  let lambda2 := lambda1 + env.atan2 (env.sin theta * env.sin d * env.cos phi1)
    (env.cos d - env.sin phi1 * env.sin phi2)
  (phi2 * RAD_TO_DEG env, lambda2 * RAD_TO_DEG env)

/-! ## Runway-relative geometry inside the loop (source lines 362-370, 389-396) -/

/-- `rwy_hdg_rad = RWY_30L_HEADING * DEG_TO_RAD` (source lines 365, 392). -/
def rwy_hdg_rad (env : Env) : ℚ := RWY_30L_HEADING * DEG_TO_RAD env

/-- `dx` of the planar offset from the threshold (source lines 363, 390). -/
def dx_rwy (env : Env) (lon : ℚ) : ℚ :=
  (lon - RWY_30L_THRESHOLD_LON) * METERS_PER_DEG_LAT *
    env.cos (RWY_30L_THRESHOLD_LAT * DEG_TO_RAD env) * FEET_PER_METER

/-- `dy` of the planar offset from the threshold (source lines 364, 391). -/
def dy_rwy (lat : ℚ) : ℚ :=
  (lat - RWY_30L_THRESHOLD_LAT) * METERS_PER_DEG_LAT * FEET_PER_METER

/-- `along_track` (source line 366); negative = past the threshold. -/
def along_track (env : Env) (lat lon : ℚ) : ℚ :=
  -dx_rwy env lon * env.sin (rwy_hdg_rad env) -
    dy_rwy lat * env.cos (rwy_hdg_rad env)

/-- `stop_cross_track` (source line 369); the same formula is recomputed as
`cross_track` at line 393 for the controller. -/
def stop_cross_track (env : Env) (lat lon : ℚ) : ℚ :=
  dx_rwy env lon * env.cos (rwy_hdg_rad env) -
    dy_rwy lat * env.sin (rwy_hdg_rad env)

/-- `hdg_error_to_rwy = abs(signed_angle_diff(heading, RWY_30L_HEADING))`
(source line 370). -/
def hdg_error_to_rwy (heading : ℚ) : ℚ :=
  |signed_angle_diff heading RWY_30L_HEADING|

/-! ## Simulation state -/

/-- The mutable loop state of the script (lines 274-351): position, altitude,
heading, groundspeed, turn rate, bank angle, the monotone `rollout_started`
flag and the `phase` marker.  `bank` is first assigned at iteration 1; the
field models the (irrelevant) value it holds before that. -/
structure SimState where
  lat : ℚ
  lon : ℚ
  alt : ℚ
  heading : ℚ
  speed : ℚ
  turn_rate : ℚ
  bank : ℚ
  rollout_started : Bool
  phase : ℕ
deriving Repr

/-- Pre-loop configuration threaded into every step: the bank angle captured
at the split (source lines 296-326) and the descent rate computed before the
loop (source lines 254-265). -/
structure Config where
  original_bank_at_split : ℚ
  actual_descent_fpm : ℚ

/-- The initial loop state (source lines 273-294, 335-351): `phase = 1`
(line 340) and `rollout_started = False` (line 351); position, altitude,
heading, speed and turn rate come from the split-point analysis or the
collision-point override.  `bank0` models the not-yet-assigned `bank`. -/
def initialState (lat lon alt heading speed turn_rate bank0 : ℚ) : SimState :=
  { lat := lat, lon := lon, alt := alt, heading := heading, speed := speed,
    turn_rate := turn_rate, bank := bank0, rollout_started := false,
    phase := 1 }

/-- `actual_descent_fpm` as computed before the loop (source lines 254-264):
the descent needed to reach `TARGET_ALTITUDE_FT` at the threshold, negated. -/
def actual_descent_fpm_calc (alt_split dist_to_rwy speed_at_split : ℚ) : ℚ :=
  let alt_to_lose := alt_split - TARGET_ALTITUDE_FT
  let avg_speed_fps := ((speed_at_split + TARGET_SPEED_KTS) / 2) * KNOTS_TO_FPS
  let time_to_threshold := dist_to_rwy / avg_speed_fps
  let computed_descent_fpm : ℚ :=
    (if time_to_threshold > 0 then (alt_to_lose / time_to_threshold) * 60
     else 600);
  -computed_descent_fpm

/-! ## Stop condition (source lines 372-380) -/

/-- The loop-exit test (source lines 374-378): 1000 ft past the threshold, or
established on the centerline (within 50 ft) with runway heading (within 5°).
No other test breaks the loop. -/
def stop_condition (env : Env) (s : SimState) : Bool :=
  let on_centerline := decide (|stop_cross_track env s.lat s.lon| < 50)
  let on_heading := decide (hdg_error_to_rwy s.heading < 5)
  let at_1000ft_marker := decide (along_track env s.lat s.lon < -1000)
  at_1000ft_marker || (on_centerline && on_heading)

/-! ## Controller (source lines 398-483) -/

/-- `intercept_heading = RWY_30L_HEADING - 5` (source line 416). -/
def intercept_heading : ℚ := RWY_30L_HEADING - 5

/-- Target bank once rollout is active (source lines 434-466): shallow right
bank to kill the turn while the heading error exceeds 20°, otherwise a
cross-track / heading-correction blend with weights tiered on `|cross_track|`
(`< 100` / `< 300` / otherwise). -/
def target_bank_rollout (cross_track hdg_to_runway : ℚ) : ℚ :=
  if hdg_to_runway > 20 then min 8 (hdg_to_runway * 0.4)
  else
    let cross_track_abs := |cross_track|
    let wg : ℚ × ℚ :=
      if cross_track_abs < 100 then (0.9, 1.0)
      else if cross_track_abs < 300 then (0.7, 0.8)
      else (0.4, 0.6)
    let hdg_weight := wg.1
    let hdg_gain := wg.2
    let intercept_bank := max (-12) (min 12 (-cross_track / 50))
    let hdg_correction := max (-18) (min 18 (hdg_to_runway * hdg_gain))
    max (-20) (min 20 (intercept_bank * (1 - hdg_weight) +
      hdg_correction * hdg_weight))

/-- The controller branch for iterations ≥ 2 (source lines 408-466): returns
`(target_bank, rollout_started)`.  Pre-rollout (still right of the centerline,
heading not yet past the intercept heading, rollout not started) holds the
original bank; otherwise `rollout_started` latches `True` and the rollout
target is computed. -/
def controller (cfg : Config) (cross_track heading hdg_to_runway : ℚ)
    (rollout_started : Bool) : ℚ × Bool :=
  let hdg_past_intercept := decide (heading < intercept_heading)
  if decide (cross_track > 200) && !hdg_past_intercept && !rollout_started then
    (cfg.original_bank_at_split, rollout_started)
  else
    (target_bank_rollout cross_track hdg_to_runway, true)

/-- Bank-rate cap per step (source lines 468-477), using the updated
`rollout_started` flag. -/
def max_bank_change (rollout_started : Bool) (hdg_to_runway : ℚ) : ℚ :=
  if rollout_started then
    if hdg_to_runway > 20 then 8 * dt else 5 * dt
  else 3 * dt

/-- The rate limiter (source lines 479-483): step by at most `max_change`
toward `target_bank`, snapping when within one step. -/
def bank_step (bank target_bank max_change : ℚ) : ℚ :=
  let bank_diff := target_bank - bank
  if |bank_diff| > max_change then
    bank + max_change * (if bank_diff > 0 then 1 else -1)
  else target_bank

/-- The full bank update of one iteration (source lines 402-483): iteration 1
copies the original bank with no rate limiting; later iterations run the
controller and the rate limiter.  Returns `(bank, rollout_started)`. -/
def controller_bank (cfg : Config) (iteration : ℕ)
    (cross_track heading hdg_to_runway bank : ℚ) (rollout_started : Bool) :
    ℚ × Bool :=
  if iteration = 1 then (cfg.original_bank_at_split, rollout_started)
  else
    let c := controller cfg cross_track heading hdg_to_runway rollout_started
    let mbc := max_bank_change c.2 hdg_to_runway
    (bank_step bank c.1 mbc, c.2)

/-- `turn_rate` from bank (source lines 485-491): `omega = g tan(bank)/V`,
zero within 0.5° of wings level. -/
def turn_rate_from_bank (env : Env) (speed bank : ℚ) : ℚ :=
  let V_fps := speed * KNOTS_TO_FPS
  if |bank| > 0.5 then
    (G_FPS2 * env.tan (bank * DEG_TO_RAD env) / V_fps) * RAD_TO_DEG env
  else 0

/-! ## Profile generators (source lines 493-511) -/

/-- The deceleration profile of one step (source lines 495-506).  Note the
inner guard `time_to_threshold > 1`: with it false the speed is left
unchanged even when `speed > TARGET_SPEED_KTS` and `dist_to_rwy > 100`. -/
def decel_speed (speed dist_to_rwy : ℚ) : ℚ :=
  let speed_error := speed - TARGET_SPEED_KTS
  if speed_error > 0 ∧ dist_to_rwy > 100 then
    let time_to_threshold := dist_to_rwy / (speed * KNOTS_TO_FPS)
    if time_to_threshold > 1 then
      let decel_rate := max (min (speed_error / time_to_threshold) 2) 0.3
      speed - decel_rate * dt
    else speed
  else speed

/-- The descent profile of one step (source lines 508-511): constant-rate
descent clamped from below at `TARGET_ALTITUDE_FT`. -/
def descend_alt (actual_descent_fpm alt : ℚ) : ℚ :=
  let alt2 := alt + (actual_descent_fpm / 60) * dt
  if alt2 < TARGET_ALTITUDE_FT then TARGET_ALTITUDE_FT else alt2

/-! ## One loop iteration and the integrator loop (source lines 353-545) -/

/-- The body of one loop iteration after the stop check (source lines
389-545): bank update, turn rate from bank, deceleration, descent, heading
advance (normalized), position advance via `destination_point`, with the
`phase` marker carried through unchanged. -/
def stepBody (env : Env) (cfg : Config) (iteration : ℕ) (s : SimState) :
    SimState :=
  let dist_to_rwy := haversine_distance_ft env s.lat s.lon
    RWY_30L_THRESHOLD_LAT RWY_30L_THRESHOLD_LON
  let cross_track := stop_cross_track env s.lat s.lon
  let hdg_to_runway := signed_angle_diff s.heading RWY_30L_HEADING
  let br := controller_bank cfg iteration cross_track s.heading hdg_to_runway
    s.bank s.rollout_started
  let bank := br.1
  let rollout_started := br.2
  let turn_rate := turn_rate_from_bank env s.speed bank
  let speed := decel_speed s.speed dist_to_rwy
  let alt := descend_alt cfg.actual_descent_fpm s.alt
  let heading := normalize_heading (s.heading + turn_rate * dt)
  let dist_traveled_ft := speed * KNOTS_TO_FPS * dt
  let pos := destination_point env s.lat s.lon heading dist_traveled_ft
  { lat := pos.1, lon := pos.2, alt := alt, heading := heading,
    speed := speed, turn_rate := turn_rate, bank := bank,
    rollout_started := rollout_started, phase := s.phase }

/-- Result of running the loop: the final value of the `iteration` counter,
whether a stop predicate broke the loop, the state at exit, and the post-step
states appended to `extended_data` in order (source lines 533-545; each
appended row draws every field, including `phase`, from the state after the
iteration's updates). -/
structure RunResult where
  iterations : ℕ
  stopped_early : Bool
  final : SimState
  states : List SimState

/-- The `while iteration < max_iterations` loop (source lines 353-545),
embedded with `fuel = max_iterations - iteration`: the counter increments,
the stop condition is evaluated on the current state and breaks the loop,
otherwise the body runs and the loop continues. -/
def simLoop (env : Env) (cfg : Config) :
    ℕ → ℕ → SimState → RunResult
  | 0, iteration, s =>
    { iterations := iteration, stopped_early := false, final := s,
      states := [] }
  | fuel + 1, iteration, s =>
    let iteration2 := iteration + 1
    if stop_condition env s then
      { iterations := iteration2, stopped_early := true, final := s,
        states := [] }
    else
      let s2 := stepBody env cfg iteration2 s
      let r := simLoop env cfg fuel iteration2 s2
      { iterations := r.iterations, stopped_early := r.stopped_early,
        final := r.final, states := s2 :: r.states }

/-- The whole simulation: the loop from `iteration = 0` (source line 341)
with the full `max_iterations` budget. -/
def runSim (env : Env) (cfg : Config) (s0 : SimState) : RunResult :=
  simLoop env cfg max_iterations 0 s0

/-! ## Claim-side definitions

The following definitions are written from the words of the claims (not from
the source) so that the source functions can be compared against them. -/

/-- `clamp(x, lo, hi)` as the spec writes it. -/
def clamp (x lo hi : ℚ) : ℚ := max lo (min hi x)

/-- The target-bank formula exactly as claim C2 states it: the middle weight
tier applies when `100 ≤ |cross-track| ≤ 300` (inclusive upper bound). -/
def target_bank_blend_claim (crossTrack headingError : ℚ) : ℚ :=
  let a := |crossTrack|
  let weight : ℚ := if a < 100 then 0.9 else if a ≤ 300 then 0.7 else 0.4
  let gain : ℚ := if a < 100 then 1.0 else if a ≤ 300 then 0.8 else 0.6
  let interceptBank := clamp (-crossTrack / 50) (-12) 12
  let headingCorrection := clamp (headingError * gain) (-18) 18
  clamp (interceptBank * (1 - weight) + headingCorrection * weight) (-20) 20

/-- Claim C2 amended: the middle weight tier applies when
`100 ≤ |cross-track| < 300` (exclusive upper bound), matching the source's
`elif cross_track_abs < 300`. -/
def target_bank_blend_amended (crossTrack headingError : ℚ) : ℚ :=
  let a := |crossTrack|
  let weight : ℚ := if a < 100 then 0.9 else if a < 300 then 0.7 else 0.4
  let gain : ℚ := if a < 100 then 1.0 else if a < 300 then 0.8 else 0.6
  let interceptBank := clamp (-crossTrack / 50) (-12) 12
  let headingCorrection := clamp (headingError * gain) (-18) 18
  clamp (interceptBank * (1 - weight) + headingCorrection * weight) (-20) 20

/-- The deceleration step exactly as claim C5 states it: applied if and only
if `speed > TARGET_SPEED_KTS` and `dist_to_rwy > 100`. -/
def decel_speed_claim (speed dist_to_rwy : ℚ) : ℚ :=
  if speed > TARGET_SPEED_KTS ∧ dist_to_rwy > 100 then
    let timeToThreshold := dist_to_rwy / (speed * KNOTS_TO_FPS)
    speed - clamp ((speed - TARGET_SPEED_KTS) / timeToThreshold) 0.3 2 * dt
  else speed

/-- Claim C5 amended: the deceleration additionally requires the estimated
time to threshold to exceed one second, matching the source's inner guard. -/
def decel_speed_amended (speed dist_to_rwy : ℚ) : ℚ :=
  if speed > TARGET_SPEED_KTS ∧ dist_to_rwy > 100 ∧
      dist_to_rwy / (speed * KNOTS_TO_FPS) > 1 then
    let timeToThreshold := dist_to_rwy / (speed * KNOTS_TO_FPS)
    speed - clamp ((speed - TARGET_SPEED_KTS) / timeToThreshold) 0.3 2 * dt
  else speed

/-! ## Helper lemmas: projections of one step -/

theorem stepBody_speed (env : Env) (cfg : Config) (it : ℕ) (s : SimState) :
    (stepBody env cfg it s).speed =
      decel_speed s.speed (haversine_distance_ft env s.lat s.lon
        RWY_30L_THRESHOLD_LAT RWY_30L_THRESHOLD_LON) := rfl

theorem stepBody_alt (env : Env) (cfg : Config) (it : ℕ) (s : SimState) :
    (stepBody env cfg it s).alt = descend_alt cfg.actual_descent_fpm s.alt :=
  rfl

theorem stepBody_phase (env : Env) (cfg : Config) (it : ℕ) (s : SimState) :
    (stepBody env cfg it s).phase = s.phase := rfl

theorem stepBody_bank (env : Env) (cfg : Config) (it : ℕ) (s : SimState) :
    (stepBody env cfg it s).bank =
      (controller_bank cfg it (stop_cross_track env s.lat s.lon) s.heading
        (signed_angle_diff s.heading RWY_30L_HEADING) s.bank
        s.rollout_started).1 := rfl

theorem stepBody_rollout (env : Env) (cfg : Config) (it : ℕ) (s : SimState) :
    (stepBody env cfg it s).rollout_started =
      (controller_bank cfg it (stop_cross_track env s.lat s.lon) s.heading
        (signed_angle_diff s.heading RWY_30L_HEADING) s.bank
        s.rollout_started).2 := rfl

/-! ## Helper lemmas: the loop -/

theorem simLoop_zero (env : Env) (cfg : Config) (iter : ℕ) (s : SimState) :
    simLoop env cfg 0 iter s =
      { iterations := iter, stopped_early := false, final := s,
        states := [] } := rfl

theorem simLoop_succ_stop (env : Env) (cfg : Config) (fuel iter : ℕ)
    (s : SimState) (h : stop_condition env s = true) :
    simLoop env cfg (fuel + 1) iter s =
      { iterations := iter + 1, stopped_early := true, final := s,
        states := [] } := by
  simp [simLoop, h]

theorem simLoop_succ_go (env : Env) (cfg : Config) (fuel iter : ℕ)
    (s : SimState) (h : stop_condition env s = false) :
    simLoop env cfg (fuel + 1) iter s =
      { iterations := (simLoop env cfg fuel (iter + 1)
          (stepBody env cfg (iter + 1) s)).iterations,
        stopped_early := (simLoop env cfg fuel (iter + 1)
          (stepBody env cfg (iter + 1) s)).stopped_early,
        final := (simLoop env cfg fuel (iter + 1)
          (stepBody env cfg (iter + 1) s)).final,
        states := stepBody env cfg (iter + 1) s ::
          (simLoop env cfg fuel (iter + 1)
            (stepBody env cfg (iter + 1) s)).states } := by
  simp [simLoop, h]

/-- Invariant preservation for the appended states: a property preserved by
every iteration body holds of every appended state. -/
theorem simLoop_states_pres (env : Env) (cfg : Config) (P : SimState → Prop)
    (hstep : ∀ it s, P s → P (stepBody env cfg it s)) :
    ∀ fuel iter s, P s → List.Forall P (simLoop env cfg fuel iter s).states
  | 0, iter, s, _ => by rw [simLoop_zero]; exact trivial
  | fuel + 1, iter, s, hs => by
    cases h : stop_condition env s with
    | true => rw [simLoop_succ_stop env cfg fuel iter s h]; exact trivial
    | false =>
      rw [simLoop_succ_go env cfg fuel iter s h]
      have h2 : P (stepBody env cfg (iter + 1) s) := hstep (iter + 1) s hs
      exact (List.forall_cons _ _ _).mpr
        ⟨h2, simLoop_states_pres env cfg P hstep fuel (iter + 1) _ h2⟩

/-- Iteration-aware variant: a property established unconditionally by the
first iteration's body and preserved by all later ones holds of every
appended state, whatever the initial state. -/
theorem simLoop_states_inv (env : Env) (cfg : Config) (P : SimState → Prop)
    (h1 : ∀ s, P (stepBody env cfg 1 s))
    (h2 : ∀ it s, it ≠ 1 → P s → P (stepBody env cfg it s)) :
    ∀ fuel iter s, (iter = 0 ∨ P s) →
      List.Forall P (simLoop env cfg fuel iter s).states
  | 0, iter, s, _ => by rw [simLoop_zero]; exact trivial
  | fuel + 1, iter, s, hs => by
    cases h : stop_condition env s with
    | true => rw [simLoop_succ_stop env cfg fuel iter s h]; exact trivial
    | false =>
      rw [simLoop_succ_go env cfg fuel iter s h]
      have hP : P (stepBody env cfg (iter + 1) s) := by
        rcases hs with h0 | hP0
        · subst h0; exact h1 s
        · rcases Nat.eq_zero_or_pos iter with h0 | hpos
          · subst h0; exact h1 s
          · exact h2 (iter + 1) s (by omega) hP0
      exact (List.forall_cons _ _ _).mpr
        ⟨hP, simLoop_states_inv env cfg P h1 h2 fuel (iter + 1) _ (Or.inr hP)⟩

/-- Step-relation chains over the trace of a projected quantity, carrying an
invariant. -/
theorem simLoop_chain_inv (env : Env) (cfg : Config) (P : SimState → Prop)
    (f : SimState → ℚ) (R : ℚ → ℚ → Prop)
    (hstep : ∀ it s, P s → P (stepBody env cfg it s) ∧
      R (f s) (f (stepBody env cfg it s))) :
    ∀ fuel iter s, P s →
      List.Chain' R (f s :: (simLoop env cfg fuel iter s).states.map f)
  | 0, iter, s, _ => by rw [simLoop_zero]; simp
  | fuel + 1, iter, s, hs => by
    cases h : stop_condition env s with
    | true => rw [simLoop_succ_stop env cfg fuel iter s h]; simp
    | false =>
      rw [simLoop_succ_go env cfg fuel iter s h]
      obtain ⟨hP, hR⟩ := hstep (iter + 1) s hs
      exact (List.chain'_cons).mpr
        ⟨hR, simLoop_chain_inv env cfg P f R hstep fuel (iter + 1) _ hP⟩

/-- The loop's counter/exit discipline: the counter never exceeds
`iter + fuel`; an early exit happens exactly when the stop test fired at the
returned state, and otherwise the counter exhausts the budget. -/
theorem simLoop_stop_spec (env : Env) (cfg : Config) :
    ∀ fuel iter s,
      (simLoop env cfg fuel iter s).iterations ≤ iter + fuel ∧
      ((simLoop env cfg fuel iter s).stopped_early = true ∧
          stop_condition env (simLoop env cfg fuel iter s).final = true ∨
        (simLoop env cfg fuel iter s).stopped_early = false ∧
          (simLoop env cfg fuel iter s).iterations = iter + fuel)
  | 0, iter, s => by
    rw [simLoop_zero]
    exact ⟨Nat.le_refl _, Or.inr ⟨rfl, rfl⟩⟩
  | fuel + 1, iter, s => by
    cases h : stop_condition env s with
    | true =>
      rw [simLoop_succ_stop env cfg fuel iter s h]
      refine ⟨?_, Or.inl ⟨rfl, h⟩⟩
      show iter + 1 ≤ iter + (fuel + 1)
      omega
    | false =>
      rw [simLoop_succ_go env cfg fuel iter s h]
      have ih := simLoop_stop_spec env cfg fuel (iter + 1)
        (stepBody env cfg (iter + 1) s)
      dsimp only
      refine ⟨by omega, ?_⟩
      rcases ih.2 with h2 | h2
      · exact Or.inl h2
      · exact Or.inr ⟨h2.1, by omega⟩

/-! ## Helper lemmas: heading arithmetic -/

theorem wrap_down_le (d : ℚ) : wrap_down d ≤ 180 := by
  induction d using wrap_down.induct with
  | case1 d h ih => rw [wrap_down, if_pos h]; exact ih
  | case2 d h => rw [wrap_down, if_neg h]; linarith [not_lt.mp h]

theorem wrap_up_ge (d : ℚ) : -180 ≤ wrap_up d := by
  induction d using wrap_up.induct with
  | case1 d h ih => rw [wrap_up, if_pos h]; exact ih
  | case2 d h => rw [wrap_up, if_neg h]; linarith [not_lt.mp h]

theorem wrap_up_le (d : ℚ) : d ≤ 180 → wrap_up d ≤ 180 := by
  induction d using wrap_up.induct with
  | case1 d h ih =>
    intro _
    rw [wrap_up, if_pos h]
    exact ih (by linarith)
  | case2 d h => intro hd; rw [wrap_up, if_neg h]; exact hd

theorem wrap_down_shift (d : ℚ) : ∃ k : ℤ, wrap_down d = d + 360 * k := by
  induction d using wrap_down.induct with
  | case1 d h ih =>
    obtain ⟨k, hk⟩ := ih
    refine ⟨k - 1, ?_⟩
    rw [wrap_down, if_pos h, hk]
    push_cast
    ring
  | case2 d h => exact ⟨0, by rw [wrap_down, if_neg h]; push_cast; ring⟩

theorem wrap_up_shift (d : ℚ) : ∃ k : ℤ, wrap_up d = d + 360 * k := by
  induction d using wrap_up.induct with
  | case1 d h ih =>
    obtain ⟨k, hk⟩ := ih
    refine ⟨k + 1, ?_⟩
    rw [wrap_up, if_pos h, hk]
    push_cast
    ring
  | case2 d h => exact ⟨0, by rw [wrap_up, if_neg h]; push_cast; ring⟩

theorem signed_angle_diff_shift (from_hdg to_hdg : ℚ) :
    ∃ k : ℤ, signed_angle_diff from_hdg to_hdg = (to_hdg - from_hdg) + 360 * k := by
  obtain ⟨k1, hk1⟩ := wrap_down_shift (to_hdg - from_hdg)
  obtain ⟨k2, hk2⟩ := wrap_up_shift (wrap_down (to_hdg - from_hdg))
  refine ⟨k1 + k2, ?_⟩
  rw [signed_angle_diff, hk2, hk1]
  push_cast
  ring

theorem norm_up_nonneg (hdg : ℚ) : 0 ≤ norm_up hdg := by
  induction hdg using norm_up.induct with
  | case1 hdg h ih => rw [norm_up, if_pos h]; exact ih
  | case2 hdg h => rw [norm_up, if_neg h]; exact not_lt.mp h

theorem norm_down_lt (hdg : ℚ) : norm_down hdg < 360 := by
  induction hdg using norm_down.induct with
  | case1 hdg h ih => rw [norm_down, if_pos h]; exact ih
  | case2 hdg h => rw [norm_down, if_neg h]; linarith [not_le.mp h]

theorem norm_down_nonneg (hdg : ℚ) : 0 ≤ hdg → 0 ≤ norm_down hdg := by
  induction hdg using norm_down.induct with
  | case1 hdg h ih =>
    intro _
    rw [norm_down, if_pos h]
    exact ih (by linarith [h])
  | case2 hdg h => intro h0; rw [norm_down, if_neg h]; exact h0

theorem norm_up_shift (hdg : ℚ) : ∃ k : ℤ, norm_up hdg = hdg + 360 * k := by
  induction hdg using norm_up.induct with
  | case1 hdg h ih =>
    obtain ⟨k, hk⟩ := ih
    refine ⟨k + 1, ?_⟩
    rw [norm_up, if_pos h, hk]
    push_cast
    ring
  | case2 hdg h => exact ⟨0, by rw [norm_up, if_neg h]; push_cast; ring⟩

theorem norm_down_shift (hdg : ℚ) : ∃ k : ℤ, norm_down hdg = hdg + 360 * k := by
  induction hdg using norm_down.induct with
  | case1 hdg h ih =>
    obtain ⟨k, hk⟩ := ih
    refine ⟨k - 1, ?_⟩
    rw [norm_down, if_pos h, hk]
    push_cast
    ring
  | case2 hdg h => exact ⟨0, by rw [norm_down, if_neg h]; push_cast; ring⟩

theorem normalize_heading_nonneg (hdg : ℚ) : 0 ≤ normalize_heading hdg :=
  norm_down_nonneg _ (norm_up_nonneg hdg)

theorem normalize_heading_lt (hdg : ℚ) : normalize_heading hdg < 360 :=
  norm_down_lt _

theorem normalize_heading_shift (hdg : ℚ) :
    ∃ k : ℤ, normalize_heading hdg = hdg + 360 * k := by
  obtain ⟨k1, hk1⟩ := norm_up_shift hdg
  obtain ⟨k2, hk2⟩ := norm_down_shift (norm_up hdg)
  refine ⟨k1 + k2, ?_⟩
  rw [normalize_heading, hk2, hk1]
  push_cast
  ring

/-- Headings that differ by a whole number of turns normalize equally. -/
theorem normalize_heading_congr (a b : ℚ) (k : ℤ) (hab : a = b + 360 * k) :
    normalize_heading a = normalize_heading b := by
  obtain ⟨k1, hk1⟩ := normalize_heading_shift a
  obtain ⟨k2, hk2⟩ := normalize_heading_shift b
  have hd : normalize_heading a - normalize_heading b =
      360 * ((k + k1 - k2 : ℤ) : ℚ) := by
    rw [hk1, hk2, hab]
    push_cast
    ring
  have hb1 : normalize_heading a - normalize_heading b < 360 := by
    have := normalize_heading_lt a
    have := normalize_heading_nonneg b
    linarith
  have hb2 : -(360 : ℚ) < normalize_heading a - normalize_heading b := by
    have := normalize_heading_nonneg a
    have := normalize_heading_lt b
    linarith
  have hm1 : ((k + k1 - k2 : ℤ) : ℚ) < 1 := by linarith
  have hm2 : (-1 : ℚ) < ((k + k1 - k2 : ℤ) : ℚ) := by linarith
  have hz : (k + k1 - k2 : ℤ) = 0 := by
    have h1 : (k + k1 - k2 : ℤ) < 1 := by exact_mod_cast hm1
    have h2 : (-1 : ℤ) < (k + k1 - k2 : ℤ) := by exact_mod_cast hm2
    omega
  rw [hz] at hd
  push_cast at hd
  linarith

/-! ## Roll interpolation (source lines 568-611)

A recorded roll sample keeps the parsed time in seconds and the roll value
(the `time` string of the source record is not consulted by
`interpolate_roll` and is omitted). -/

structure RollSample where
  secs : ℚ
  roll : ℚ
deriving DecidableEq, Repr

/-- The scan of `interpolate_roll`'s `for` loop (source lines 593-600):
`prev` is overwritten by each sample at or before `target_secs`; the first
sample strictly after it becomes `next_r` and breaks the loop. -/
def find_prev_next (target_secs : ℚ) :
    List RollSample → Option RollSample →
      Option RollSample × Option RollSample
  | [], prev => (prev, none)
  | r :: rs, prev =>
    if r.secs ≤ target_secs then find_prev_next target_secs rs (some r)
    else (prev, some r)

/-- `interpolate_roll(target_secs)` (source lines 589-611) over an explicit
`original_roll_data` list. -/
def interpolate_roll (original_roll_data : List RollSample)
    (target_secs : ℚ) : Option ℚ :=
  match original_roll_data with
  | [] => none
  | r0 :: _ =>
    let pn := find_prev_next target_secs original_roll_data none
    match pn.1, pn.2 with
    | none, _ => some r0.roll
    | some prev, none => some prev.roll
    | some prev, some next_r =>
      if prev.secs = target_secs then some prev.roll
      else some (prev.roll + (target_secs - prev.secs) /
        (next_r.secs - prev.secs) * (next_r.roll - prev.roll))

theorem find_prev_next_all_le (t : ℚ) :
    ∀ (l : List RollSample) (p : RollSample), (∀ x ∈ l, x.secs ≤ t) →
      find_prev_next t l (some p) = (some (l.getLastD p), none)
  | [], _, _ => rfl
  | r :: rs, p, h => by
    show (if r.secs ≤ t then find_prev_next t rs (some r)
      else (some p, some r)) = _
    rw [if_pos (h r (List.mem_cons_self r rs)), List.getLastD_cons]
    exact find_prev_next_all_le t rs r fun x hx => h x (List.mem_cons_of_mem r hx)

theorem chain_secs_le_getLastD (t : ℚ) :
    ∀ (rs : List RollSample) (r : RollSample),
      List.Chain' (fun a b => a.secs ≤ b.secs) (r :: rs) →
      ∀ x ∈ r :: rs, x.secs ≤ ((r :: rs).getLastD r).secs
  | [], r, _, x, hx => by
    simp only [List.mem_singleton] at hx
    subst hx
    simp [List.getLastD]
  | r1 :: rs, r, hc, x, hx => by
    have hc2 := (List.chain'_cons.mp hc)
    have hlast : ((r :: r1 :: rs).getLastD r) = ((r1 :: rs).getLastD r1) := by
      rw [List.getLastD_cons, List.getLastD_cons, List.getLastD_cons]
    rw [hlast]
    rcases List.mem_cons.mp hx with h | h
    · subst h
      calc x.secs ≤ r1.secs := hc2.1
        _ ≤ _ := chain_secs_le_getLastD t rs r1 hc2.2 r1 (List.mem_cons_self r1 rs)
    · exact chain_secs_le_getLastD t rs r1 hc2.2 x h

/-! ## Per-step lemmas for the profiles -/

/-- One deceleration step never increases the speed. -/
theorem decel_speed_le (speed dist_to_rwy : ℚ) :
    decel_speed speed dist_to_rwy ≤ speed := by
  simp only [decel_speed]
  split_ifs with h1 h2
  · have h3 : (0.3 : ℚ) ≤
        max (min ((speed - TARGET_SPEED_KTS) /
          (dist_to_rwy / (speed * KNOTS_TO_FPS))) 2) 0.3 := le_max_right _ _
    simp only [dt]
    linarith
  · exact le_refl _
  · exact le_refl _

/-- One deceleration step either leaves the speed unchanged or leaves it
strictly above `TARGET_SPEED_KTS - 2 * dt` (the target minus the largest
possible decrement). -/
theorem decel_speed_cases (speed dist_to_rwy : ℚ) :
    decel_speed speed dist_to_rwy = speed ∨
      TARGET_SPEED_KTS - 2 * dt < decel_speed speed dist_to_rwy := by
  simp only [decel_speed]
  split_ifs with h1 h2
  · refine Or.inr ?_
    have hr : max (min ((speed - TARGET_SPEED_KTS) /
        (dist_to_rwy / (speed * KNOTS_TO_FPS))) 2) 0.3 ≤ 2 :=
      max_le (min_le_right _ _) (by norm_num)
    have hs : TARGET_SPEED_KTS < speed := by linarith [h1.1]
    simp only [dt]
    nlinarith
  · exact Or.inl rfl
  · exact Or.inl rfl

/-- The descent rate computed before the loop is nonpositive whenever the
split-point altitude is at or above the floor altitude. -/
theorem actual_descent_fpm_nonpos (alt_split dist_to_rwy speed_at_split : ℚ)
    (h : TARGET_ALTITUDE_FT ≤ alt_split) :
    actual_descent_fpm_calc alt_split dist_to_rwy speed_at_split ≤ 0 := by
  simp only [actual_descent_fpm_calc]
  split_ifs with h1
  · have h2 : (0 : ℚ) ≤ (alt_split - TARGET_ALTITUDE_FT) /
        (dist_to_rwy / ((speed_at_split + TARGET_SPEED_KTS) / 2 * KNOTS_TO_FPS)) :=
      div_nonneg (by linarith) h1.le
    linarith
  · norm_num

/-- One descent step, below a nonpositive rate and starting at or above the
floor: the altitude does not increase, stays at or above the floor, and
either takes the full `(rate/60)·dt` decrement or clamps at the floor. -/
theorem descend_alt_spec (rate alt : ℚ) (hrate : rate ≤ 0)
    (halt : TARGET_ALTITUDE_FT ≤ alt) :
    descend_alt rate alt ≤ alt ∧
      TARGET_ALTITUDE_FT ≤ descend_alt rate alt ∧
      ((TARGET_ALTITUDE_FT ≤ alt + rate / 60 * dt ∧
          descend_alt rate alt = alt + rate / 60 * dt) ∨
        (alt + rate / 60 * dt < TARGET_ALTITUDE_FT ∧
          descend_alt rate alt = TARGET_ALTITUDE_FT)) := by
  have hd : rate / 60 * dt ≤ 0 := by
    simp only [dt]
    linarith
  simp only [descend_alt]
  split_ifs with h1
  · exact ⟨halt, le_refl _, Or.inr ⟨h1, rfl⟩⟩
  · exact ⟨by linarith, by linarith [not_lt.mp h1], Or.inl ⟨not_lt.mp h1, rfl⟩⟩

/-! ## Claim theorems -/

/-- C7 counterexample: the claim puts `signed_angle_diff` in the half-open
interval `(-180, 180]`, but `signed_angle_diff(180, 0) = -180`, which is not
strictly greater than `-180`. -/
theorem c7_counterexample :
    signed_angle_diff 180 0 = -180 ∧ ¬(-180 < signed_angle_diff 180 0) := by
  have h : signed_angle_diff 180 0 = -180 := by
    unfold signed_angle_diff
    rw [show ((0 : ℚ) - 180) = -180 by norm_num]
    rw [wrap_down, if_neg (by norm_num : ¬((-180 : ℚ) > 180))]
    rw [wrap_up, if_neg (by norm_num : ¬((-180 : ℚ) < -180))]
  exact ⟨h, by rw [h]; norm_num⟩

/-- C7 amended: for all headings `h1`, `h2` the value
`signed_angle_diff h1 h2` lies in the closed interval `[-180, 180]` (the
endpoint `-180` is attained, e.g. by `(180, 0)`), and the round-trip
`normalize_heading (h1 + signed_angle_diff h1 h2) = normalize_heading h2`
holds. -/
theorem c7_delta_range_roundtrip (h1 h2 : ℚ) :
    (-180 ≤ signed_angle_diff h1 h2 ∧ signed_angle_diff h1 h2 ≤ 180) ∧
      normalize_heading (h1 + signed_angle_diff h1 h2) =
        normalize_heading h2 := by
  refine ⟨⟨wrap_up_ge _, wrap_up_le _ (wrap_down_le _)⟩, ?_⟩
  obtain ⟨k, hk⟩ := signed_angle_diff_shift h1 h2
  exact normalize_heading_congr _ _ k (by rw [hk]; ring)

/-- C8: on a non-empty time-sorted sample list, `interpolate_roll` returns
the first sample's roll at any time strictly before the first sample, and
the last sample's roll at any time at or after the last sample. -/
theorem c8_interpolate_roll_flat (r : RollSample) (rs : List RollSample)
    (t : ℚ)
    (hsorted : List.Chain' (fun a b => a.secs ≤ b.secs) (r :: rs)) :
    (t < r.secs → interpolate_roll (r :: rs) t = some r.roll) ∧
      (((r :: rs).getLastD r).secs ≤ t →
        interpolate_roll (r :: rs) t = some ((r :: rs).getLastD r).roll) := by
  constructor
  · intro ht
    have hf : find_prev_next t (r :: rs) none = (none, some r) := by
      show (if r.secs ≤ t then find_prev_next t rs (some r)
        else (none, some r)) = (none, some r)
      rw [if_neg (not_le.mpr ht)]
    simp only [interpolate_roll, hf]
  · intro ht
    have hall : ∀ x ∈ r :: rs, x.secs ≤ t := fun x hx =>
      le_trans (chain_secs_le_getLastD t rs r hsorted x hx) ht
    have hf : find_prev_next t (r :: rs) none =
        (some ((r :: rs).getLastD r), none) := by
      show (if r.secs ≤ t then find_prev_next t rs (some r)
        else (none, some r)) = _
      rw [if_pos (hall r (List.mem_cons_self r rs)),
        find_prev_next_all_le t rs r
          (fun x hx => hall x (List.mem_cons_of_mem r hx)),
        List.getLastD_cons]
    simp only [interpolate_roll, hf]

/-- C8 witness: a concrete sorted two-sample list exercising both flat
extrapolation branches. -/
theorem c8_interpolate_roll_flat_witness :
    ((-1 : ℚ) < 0 ∧
        interpolate_roll [⟨0, 5⟩, ⟨10, 7⟩] (-1) = some 5) ∧
      ((10 : ℚ) ≤ 10 ∧
        interpolate_roll [⟨0, 5⟩, ⟨10, 7⟩] 10 = some 7) := by
  have hs : List.Chain' (fun a b => a.secs ≤ b.secs)
      [(⟨0, 5⟩ : RollSample), ⟨10, 7⟩] := by
    simp only [List.chain'_cons, List.chain'_singleton, and_true]
    norm_num
  constructor
  · exact ⟨by norm_num,
      (c8_interpolate_roll_flat ⟨0, 5⟩ [⟨10, 7⟩] (-1) hs).1 (by norm_num)⟩
  · exact ⟨le_refl _,
      (c8_interpolate_roll_flat ⟨0, 5⟩ [⟨10, 7⟩] 10 hs).2 (le_refl _)⟩

/-- C2 counterexample: at cross-track exactly 300 ft, heading error 0 (inside
the claim's guard of at most +20 degrees), the source selects the far tier
`(0.4, 0.6)` and yields a target bank of `-3.6` degrees, while the claim's
tiers (middle tier inclusive up to 300 ft) prescribe `(0.7, 0.8)` and
`-1.8` degrees. -/
theorem c2_counterexample :
    target_bank_rollout 300 0 = -18 / 5 ∧
      target_bank_blend_claim 300 0 = -9 / 5 ∧
      ¬target_bank_rollout 300 0 = target_bank_blend_claim 300 0 := by
  have habs : |(300 : ℚ)| = 300 := abs_of_nonneg (by norm_num)
  have h1 : target_bank_rollout 300 0 = -18 / 5 := by
    norm_num [target_bank_rollout, habs, min_def, max_def]
  have h2 : target_bank_blend_claim 300 0 = -9 / 5 := by
    norm_num [target_bank_blend_claim, clamp, habs, min_def, max_def]
  refine ⟨h1, h2, ?_⟩
  rw [h1, h2]
  norm_num

/-- C2 amended: with the middle weight tier holding for
`100 ≤ |cross-track| < 300` (strict upper bound), every rollout controller
step with signed heading error at most +20 degrees computes the target bank
by the claim's clamped blend formula. -/
theorem c2_target_bank_blend (cross_track hdg_to_runway : ℚ)
    (h : hdg_to_runway ≤ 20) :
    target_bank_rollout cross_track hdg_to_runway =
      target_bank_blend_amended cross_track hdg_to_runway := by
  simp only [target_bank_rollout, target_bank_blend_amended, clamp]
  rw [if_neg (not_lt.mpr h)]
  by_cases h1 : |cross_track| < 100
  · simp only [if_pos h1]
  · by_cases h2 : |cross_track| < 300
    · simp only [if_neg h1, if_pos h2]
    · simp only [if_neg h1, if_neg h2]

/-- C2 witness for the amended theorem: the on-centerline, aligned case. -/
theorem c2_target_bank_blend_witness :
    (0 : ℚ) ≤ 20 ∧
      target_bank_rollout 0 0 = target_bank_blend_amended 0 0 :=
  ⟨by norm_num, c2_target_bank_blend 0 0 (by norm_num)⟩

/-- C3: the bank rate limiter moves the bank toward the target by a signed
step of at most `rate · dt`, snapping exactly to the target when the
difference is within one step; the per-second rate is 3 before rollout, 8
during rollout with heading error above +20 degrees and 5 during rollout
otherwise; in particular the per-step bank change never exceeds
`rate · dt`. -/
theorem c3_bank_rate_limit (rollout_started : Bool)
    (hdg_to_runway bank target_bank : ℚ) :
    |bank_step bank target_bank
        (max_bank_change rollout_started hdg_to_runway) - bank| ≤
      max_bank_change rollout_started hdg_to_runway ∧
    ((|target_bank - bank| ≤ max_bank_change rollout_started hdg_to_runway ∧
        bank_step bank target_bank
          (max_bank_change rollout_started hdg_to_runway) = target_bank) ∨
      (max_bank_change rollout_started hdg_to_runway < |target_bank - bank| ∧
        bank_step bank target_bank
            (max_bank_change rollout_started hdg_to_runway) =
          bank + max_bank_change rollout_started hdg_to_runway *
            (if target_bank - bank > 0 then 1 else -1))) ∧
    max_bank_change rollout_started hdg_to_runway =
      (if rollout_started then
        if hdg_to_runway > 20 then (8 : ℚ) else 5
       else 3) * dt := by
  have hmc3 : max_bank_change rollout_started hdg_to_runway =
      (if rollout_started then
        if hdg_to_runway > 20 then (8 : ℚ) else 5
       else 3) * dt := by
    cases rollout_started
    all_goals simp only [max_bank_change, Bool.false_eq_true, if_false,
      if_true]
    all_goals try (split_ifs <;> ring)
  have hmc : 0 < max_bank_change rollout_started hdg_to_runway := by
    rw [hmc3]
    simp only [dt]
    split_ifs <;> norm_num
  by_cases hd : |target_bank - bank| >
      max_bank_change rollout_started hdg_to_runway
  · have hb : bank_step bank target_bank
        (max_bank_change rollout_started hdg_to_runway) =
        bank + max_bank_change rollout_started hdg_to_runway *
          (if target_bank - bank > 0 then 1 else -1) := by
      simp only [bank_step]
      rw [if_pos hd]
    refine ⟨?_, Or.inr ⟨hd, hb⟩, hmc3⟩
    rw [hb]
    have he : bank + max_bank_change rollout_started hdg_to_runway *
        (if target_bank - bank > 0 then (1 : ℚ) else -1) - bank =
        max_bank_change rollout_started hdg_to_runway *
          (if target_bank - bank > 0 then (1 : ℚ) else -1) := by ring
    rw [he, abs_mul]
    have h1 : |if target_bank - bank > 0 then (1 : ℚ) else -1| = 1 := by
      split_ifs <;> norm_num
    rw [h1, mul_one, abs_of_pos hmc]
  · have hle : |target_bank - bank| ≤
        max_bank_change rollout_started hdg_to_runway := not_lt.mp hd
    have hb : bank_step bank target_bank
        (max_bank_change rollout_started hdg_to_runway) = target_bank := by
      simp only [bank_step]
      rw [if_neg hd]
    refine ⟨?_, Or.inl ⟨hle, hb⟩, hmc3⟩
    rw [hb]
    exact hle

/-- C5 counterexample: at speed 113 kts and 150 ft to the threshold the
claim's two conditions hold (`speed > 100`, `dist > 100`), yet the source's
inner guard `time_to_threshold > 1` fails (150 ft at 113 kts is under a
second), so the code leaves the speed at 113 while the claim's formula
prescribes 112. -/
theorem c5_counterexample :
    TARGET_SPEED_KTS < 113 ∧ (100 : ℚ) < 150 ∧
      decel_speed 113 150 = 113 ∧ decel_speed_claim 113 150 = 112 ∧
      ¬decel_speed 113 150 = decel_speed_claim 113 150 := by
  have h1 : decel_speed 113 150 = 113 := by
    norm_num [decel_speed, TARGET_SPEED_KTS, KNOTS_TO_FPS, dt, min_def,
      max_def]
  have h2 : decel_speed_claim 113 150 = 112 := by
    norm_num [decel_speed_claim, clamp, TARGET_SPEED_KTS, KNOTS_TO_FPS, dt,
      min_def, max_def]
  refine ⟨by norm_num [TARGET_SPEED_KTS], by norm_num, h1, h2, ?_⟩
  rw [h1, h2]
  norm_num

/-- C5 amended: the deceleration is applied if and only if
`speed > TARGET_SPEED_KTS`, the distance to the threshold exceeds 100 ft,
and the estimated time to threshold `dist/(speed·KNOTS_TO_FPS)` exceeds one
second; when applied the speed decreases by
`clamp((speed − target)/timeToThreshold, 0.3, 2.0) · dt`, otherwise it is
unchanged. -/
theorem c5_decel_profile (speed dist_to_rwy : ℚ) :
    decel_speed speed dist_to_rwy = decel_speed_amended speed dist_to_rwy := by
  have hcl : ∀ x : ℚ, max (min x 2) 0.3 = max 0.3 (min 2 x) := fun x => by
    rw [max_comm, min_comm]
  simp only [decel_speed, decel_speed_amended, clamp]
  by_cases h1 : speed - TARGET_SPEED_KTS > 0
  · by_cases h2 : dist_to_rwy > 100
    · by_cases h3 : dist_to_rwy / (speed * KNOTS_TO_FPS) > 1
      · rw [if_pos ⟨h1, h2⟩, if_pos h3,
          if_pos (⟨by linarith, h2, h3⟩ :
            speed > TARGET_SPEED_KTS ∧ dist_to_rwy > 100 ∧
              dist_to_rwy / (speed * KNOTS_TO_FPS) > 1),
          hcl]
      · rw [if_pos ⟨h1, h2⟩, if_neg h3, if_neg (fun hc => h3 hc.2.2)]
    · rw [if_neg (fun hc => h2 hc.2), if_neg (fun hc => h2 hc.2.1)]
  · rw [if_neg (fun hc => h1 hc.1),
      if_neg (fun hc => h1 (sub_pos.mpr hc.1))]

/-- C6 counterexample: at speed 100.1 kts and 400 ft to go, the desired rate
`0.1 kts over ~2.4 s` is below the 0.3 kts/s minimum clamp, so the code
applies `0.3 · dt = 0.15` kts and the speed drops to 99.95 kts — strictly
below `TARGET_SPEED_KTS = 100` — by the deceleration profile alone. -/
theorem c6_counterexample :
    TARGET_SPEED_KTS < 100.1 ∧
      decel_speed 100.1 400 < TARGET_SPEED_KTS := by
  constructor
  · norm_num [TARGET_SPEED_KTS]
  · norm_num [decel_speed, TARGET_SPEED_KTS, KNOTS_TO_FPS, dt, min_def,
      max_def]

/-- A rate-limited bank step toward the current value is the identity. -/
theorem bank_step_self (b mc : ℚ) (h : 0 ≤ mc) : bank_step b b mc = b := by
  simp only [bank_step, sub_self, abs_zero]
  rw [if_neg (by linarith)]

/-- The controller either latches `rollout_started = true` or (in the
pre-rollout branch, which requires the flag still false) leaves both the
original-bank target and the flag unchanged. -/
theorem controller_cases (cfg : Config) (ct hd hdg : ℚ) (ro : Bool) :
    (controller cfg ct hd hdg ro).2 = true ∨
      (controller cfg ct hd hdg ro = (cfg.original_bank_at_split, ro) ∧
        ro = false) := by
  simp only [controller]
  by_cases hb : (decide (ct > 200) && !decide (hd < intercept_heading) &&
      !ro) = true
  · rw [if_pos hb]
    refine Or.inr ⟨rfl, ?_⟩
    have h2 := (Bool.and_eq_true _ _).mp hb
    simpa using h2.2
  · rw [if_neg hb]
    exact Or.inl rfl

/-- C1: the integrator loop runs at most `max_iterations = 200` iterations;
whenever it breaks early, at the state it evaluated either the along-track
distance is below -1000 ft or simultaneously the absolute cross-track is
below 50 ft and the absolute signed heading difference to
`RWY_30L_HEADING = 314.5` is below 5 degrees; and when no such break
happens the loop runs the full 200 iterations — no other condition ends it
early. -/
theorem c1_loop_termination (env : Env) (cfg : Config) (s0 : SimState) :
    (runSim env cfg s0).iterations ≤ max_iterations ∧
      ((runSim env cfg s0).stopped_early = true ∧
          (along_track env (runSim env cfg s0).final.lat
              (runSim env cfg s0).final.lon < -1000 ∨
            (|stop_cross_track env (runSim env cfg s0).final.lat
                (runSim env cfg s0).final.lon| < 50 ∧
              |signed_angle_diff (runSim env cfg s0).final.heading
                RWY_30L_HEADING| < 5)) ∨
        ((runSim env cfg s0).stopped_early = false ∧
          (runSim env cfg s0).iterations = max_iterations)) := by
  have h := simLoop_stop_spec env cfg max_iterations 0 s0
  have hs : ∀ s : SimState, stop_condition env s = true ↔
      (along_track env s.lat s.lon < -1000 ∨
        (|stop_cross_track env s.lat s.lon| < 50 ∧
          |signed_angle_diff s.heading RWY_30L_HEADING| < 5)) := by
    intro s
    simp [stop_condition, hdg_error_to_rwy]
  constructor
  · have := h.1
    simpa [runSim] using this
  · rcases h.2 with h2 | h2
    · exact Or.inl ⟨h2.1, (hs _).mp h2.2⟩
    · refine Or.inr ⟨h2.1, ?_⟩
      have := h2.2
      simpa [runSim] using this

/-- C4: with the split-point altitude at or above the floor (so the computed
descent rate is nonpositive) and the initial altitude at or above the floor,
the simulated altitude trace is non-increasing step to step, each step either
takes the full `(rate/60)·dt` decrement (whenever that stays at or above the
floor) or clamps exactly at the floor, and no sampled altitude ever falls
below `TARGET_ALTITUDE_FT`. -/
theorem c4_altitude_profile (env : Env) (cfg : Config) (s0 : SimState)
    (alt_split dist_split speed_split : ℚ)
    (hcfg : cfg.actual_descent_fpm =
      actual_descent_fpm_calc alt_split dist_split speed_split)
    (hsplit : TARGET_ALTITUDE_FT ≤ alt_split)
    (h0 : TARGET_ALTITUDE_FT ≤ s0.alt) :
    List.Chain' (fun a a2 => a2 ≤ a ∧
        ((TARGET_ALTITUDE_FT ≤ a + cfg.actual_descent_fpm / 60 * dt ∧
            a2 = a + cfg.actual_descent_fpm / 60 * dt) ∨
          (a + cfg.actual_descent_fpm / 60 * dt < TARGET_ALTITUDE_FT ∧
            a2 = TARGET_ALTITUDE_FT)))
      (s0.alt :: (runSim env cfg s0).states.map SimState.alt) ∧
    List.Forall (fun s => TARGET_ALTITUDE_FT ≤ s.alt)
      (runSim env cfg s0).states := by
  have hrate : cfg.actual_descent_fpm ≤ 0 := by
    rw [hcfg]
    exact actual_descent_fpm_nonpos alt_split dist_split speed_split hsplit
  constructor
  · refine simLoop_chain_inv env cfg (fun s => TARGET_ALTITUDE_FT ≤ s.alt)
      SimState.alt _ (fun it s hP => ?_) max_iterations 0 s0 h0
    have hd := descend_alt_spec cfg.actual_descent_fpm s.alt hrate hP
    rw [stepBody_alt]
    exact ⟨hd.2.1, hd.1, hd.2.2⟩
  · refine simLoop_states_pres env cfg (fun s => TARGET_ALTITUDE_FT ≤ s.alt)
      (fun it s hP => ?_) max_iterations 0 s0 h0
    show TARGET_ALTITUDE_FT ≤ (stepBody env cfg it s).alt
    rw [stepBody_alt]
    exact (descend_alt_spec cfg.actual_descent_fpm s.alt hrate hP).2.1

/-- C6 amended: over any simulated run the groundspeed trace (initial speed
followed by the per-step samples) is non-increasing everywhere, and the
deceleration profile can undershoot the target by strictly less than the
largest per-step decrement `2·dt = 1 kt`: every sampled speed either still
equals the initial speed or exceeds `TARGET_SPEED_KTS - 2·dt = 99 kts`. -/
theorem c6_speed_profile (env : Env) (cfg : Config) (s0 : SimState) :
    List.Chain' (fun v v2 => v2 ≤ v)
        (s0.speed :: (runSim env cfg s0).states.map SimState.speed) ∧
      List.Forall
        (fun s => s.speed = s0.speed ∨ TARGET_SPEED_KTS - 2 * dt < s.speed)
        (runSim env cfg s0).states := by
  constructor
  · refine simLoop_chain_inv env cfg (fun _ => True) SimState.speed _
      (fun it s _ => ⟨trivial, ?_⟩) max_iterations 0 s0 trivial
    rw [stepBody_speed]
    exact decel_speed_le _ _
  · refine simLoop_states_pres env cfg
      (fun s => s.speed = s0.speed ∨ TARGET_SPEED_KTS - 2 * dt < s.speed)
      (fun it s hs => ?_) max_iterations 0 s0 (Or.inl rfl)
    show (stepBody env cfg it s).speed = s0.speed ∨
      TARGET_SPEED_KTS - 2 * dt < (stepBody env cfg it s).speed
    rw [stepBody_speed]
    rcases decel_speed_cases s.speed (haversine_distance_ft env s.lat s.lon
        RWY_30L_THRESHOLD_LAT RWY_30L_THRESHOLD_LON) with h1 | h1
    · rw [h1]
      exact hs
    · exact Or.inr h1

/-- C9: every sample the simulation appends to the extended output carries
the phase marker 1 — the `phase` variable is set to 1 before the loop and
never reassigned, so the emitted phase column never distinguishes phases. -/
theorem c9_phase_marker (env : Env) (cfg : Config)
    (lat lon alt heading speed turn_rate bank0 : ℚ) :
    List.Forall (fun s => s.phase = 1)
      (runSim env cfg
        (initialState lat lon alt heading speed turn_rate bank0)).states :=
  simLoop_states_pres env cfg (fun s => s.phase = 1)
    (fun it s hs => by
      show (stepBody env cfg it s).phase = 1
      rw [stepBody_phase]
      exact hs)
    max_iterations 0 _ rfl

/-- C10: at every iteration at which `rollout_started` is (still) false
after the controller step, the bank angle equals `original_bank_at_split`
exactly: iteration 1 assigns it directly, and on later pre-rollout
iterations the target equals the current bank so the rate limiter leaves it
unchanged. -/
theorem c10_pre_rollout_bank (env : Env) (cfg : Config)
    (lat lon alt heading speed turn_rate bank0 : ℚ) :
    List.Forall
      (fun s => s.rollout_started = true ∨
        s.bank = cfg.original_bank_at_split)
      (runSim env cfg
        (initialState lat lon alt heading speed turn_rate bank0)).states := by
  refine simLoop_states_inv env cfg
    (fun s => s.rollout_started = true ∨ s.bank = cfg.original_bank_at_split)
    (fun s => ?_) (fun it s hit hs => ?_) max_iterations 0 _ (Or.inl rfl)
  · right
    rw [stepBody_bank]
    simp [controller_bank]
  · show (stepBody env cfg it s).rollout_started = true ∨
      (stepBody env cfg it s).bank = cfg.original_bank_at_split
    rw [stepBody_rollout, stepBody_bank]
    simp only [controller_bank, if_neg hit]
    rcases controller_cases cfg (stop_cross_track env s.lat s.lon) s.heading
        (signed_angle_diff s.heading RWY_30L_HEADING) s.rollout_started
      with hc | ⟨hc, hro⟩
    · exact Or.inl hc
    · right
      have hbank : s.bank = cfg.original_bank_at_split := by
        rcases hs with h | h
        · rw [hro] at h
          exact absurd h (by simp)
        · exact h
      rw [hc, hbank]
      exact bank_step_self _ _ (by
        rw [hro]
        simp only [max_bank_change, Bool.false_eq_true, if_false, dt]
        norm_num)

/-- A trivial interpretation of the transcendental interface, used only to
instantiate theorems with hypotheses at concrete inputs. -/
def envZero : Env :=
  { pi := 0, sin := fun _ => 0, cos := fun _ => 0, tan := fun _ => 0,
    asin := fun _ => 0, atan2 := fun _ _ => 0, sqrt := fun _ => 0 }

/-- C4 witness: the hypotheses are satisfiable at the program's own
configuration (split altitude 2270 ft above the 2213 ft floor). -/
theorem c4_altitude_profile_witness :
    TARGET_ALTITUDE_FT ≤ 2270 ∧
      List.Forall (fun s => TARGET_ALTITUDE_FT ≤ s.alt)
        (runSim envZero ⟨-27, actual_descent_fpm_calc 2270 0 113⟩
          (initialState RWY_30L_THRESHOLD_LAT RWY_30L_THRESHOLD_LON 2270
            314.5 113 (-5) (-27))).states :=
  ⟨by norm_num [TARGET_ALTITUDE_FT],
    (c4_altitude_profile envZero ⟨-27, actual_descent_fpm_calc 2270 0 113⟩
      (initialState RWY_30L_THRESHOLD_LAT RWY_30L_THRESHOLD_LON 2270
        314.5 113 (-5) (-27)) 2270 0 113 rfl
      (by norm_num [TARGET_ALTITUDE_FT])
      (by norm_num [TARGET_ALTITUDE_FT, initialState])).2⟩

end Sim30L
